import Mathlib

/-!
# Digital trumpet firmware: fingering resolver and waveform synthesizer

A shallow embedding of `firmware.cpp`: the static note chart, the fingering
resolver (`getFingeringCode`, `getOctaveButtonName`, `findNote`), the poll
step `loop` and the timer handler `onTimer`.

Conventions of the embedding.

* `int` values are `Int`; none of the arithmetic on them can overflow (the
  only `int` values are the literals of the source).
* `const char*` values are `String` (the text before the terminating NUL);
  `strcmp` is modelled on the character lists of its arguments.
* The pointer returned by `findNote` is the entry it points to, `none` for
  `nullptr`; the entries of the chart have pairwise distinct names, so the
  entry identifies its index.
* `float` values are modelled by exact numbers of an ordered field `α`
  (`ℚ` to evaluate, `ℝ` for the statements about `π` and `sin`); the decimal
  literals of the chart are the rationals they denote.
* `PI` and `sin` are parameters of `onTimer`; the statements instantiate them
  with `Real.pi` and `Real.sin`.
* `digitalRead` yields a level, `true` for HIGH; the inputs use pull-ups, so
  a pressed switch reads LOW.
* Display and serial output of `loop` are not modelled.
-/

namespace Trumpet

/-! ## Data model -/

/-- The record `struct TrumpetNote`. -/
structure TrumpetNote where
  noteName : String
  fingering : Int
  octaveButton : String
  frequency : ℚ
  deriving DecidableEq

/-- The table `FINGERING_CHART`, in source order. -/
def FINGERING_CHART : List TrumpetNote :=
  [ ⟨"F#3", 0, "None", 185⟩,
    ⟨"G3", 23, "None", 196⟩,
    ⟨"G#3", 13, "None", 2077 / 10⟩,
    ⟨"A3", 12, "None", 220⟩,
    ⟨"A#3", 1, "None", 2331 / 10⟩,
    ⟨"B3", 2, "None", 2469 / 10⟩,
    ⟨"C4", 0, "None", 2616 / 10⟩,
    ⟨"C#4", 0, "SW4", 2772 / 10⟩,
    ⟨"D4", 23, "SW4", 2937 / 10⟩,
    ⟨"D#4", 13, "SW4", 3111 / 10⟩,
    ⟨"E4", 12, "SW4", 3296 / 10⟩,
    ⟨"F4", 1, "SW4", 3492 / 10⟩,
    ⟨"F#4", 2, "SW4", 370⟩,
    ⟨"G4", 0, "SW4", 392⟩,
    ⟨"G#4", 23, "SW5", 4153 / 10⟩,
    ⟨"A4", 13, "SW5", 440⟩,
    ⟨"A#4", 12, "SW5", 4662 / 10⟩,
    ⟨"B4", 1, "SW5", 4939 / 10⟩,
    ⟨"C5", 2, "SW5", 5233 / 10⟩,
    ⟨"C#5", 0, "SW6", 5544 / 10⟩,
    ⟨"D5", 13, "SW6", 5873 / 10⟩,
    ⟨"D#5", 12, "SW6", 6223 / 10⟩,
    ⟨"E5", 1, "SW6", 6593 / 10⟩,
    ⟨"F5", 0, "SW7", 6985 / 10⟩,
    ⟨"F#5", 2, "SW7", 740⟩,
    ⟨"G5", 0, "SW7", 784⟩,
    ⟨"G#5", 23, "SW8", 8306 / 10⟩,
    ⟨"A5", 13, "SW8", 880⟩,
    ⟨"A#5", 12, "SW8", 9323 / 10⟩,
    ⟨"B5", 1, "SW8", 9878 / 10⟩,
    ⟨"C6", 2, "SW8", 1047⟩ ]

/-- The constant `CHART_SIZE`: the number of entries of the table. -/
def CHART_SIZE : Nat := FINGERING_CHART.length

/-! ## Fingering resolver -/

/-- The function `getFingeringCode`: the chain of eight guarded returns and
the final `return 0`. -/
def getFingeringCode (v1 v2 v3 : Bool) : Int :=
  if !v1 && !v2 && !v3 then 0
  else if !v1 && !v2 && v3 then 3
  else if !v1 && v2 && !v3 then 2
  else if v1 && !v2 && !v3 then 1
  else if !v1 && v2 && v3 then 23
  else if v1 && !v2 && v3 then 13
  else if v1 && v2 && !v3 then 12
  else if v1 && v2 && v3 then 123
  else 0

/-- The function `getOctaveButtonName`: a `switch` on the octave index. -/
def getOctaveButtonName (octave : Int) : String :=
  if octave = 0 then "None"
  else if octave = 1 then "SW4"
  else if octave = 2 then "SW5"
  else if octave = 3 then "SW6"
  else if octave = 4 then "SW7"
  else if octave = 5 then "SW8"
  else "None"

/-- The comparison of `strcmp` on two character lists: zero when they agree,
the sign of the first difference otherwise. -/
def strcmpChars : List Char → List Char → Int
  | [], [] => 0
  | [], _ :: _ => -1
  | _ :: _, [] => 1
  | a :: as, b :: bs =>
    if a = b then strcmpChars as bs else (a.toNat : Int) - (b.toNat : Int)

/-- The library function `strcmp` on strings. -/
def strcmp (a b : String) : Int := strcmpChars a.data b.data

/-- The scan of `findNote` over the entries from the current index on: the
first entry whose fingering equals the code and whose octave button compares
equal is returned; reaching the end gives `none` (the null pointer). -/
def findNoteFrom (fingeringCode : Int) (octaveButton : String) :
    List TrumpetNote → Option TrumpetNote
  | [] => none
  | e :: rest =>
    if e.fingering = fingeringCode ∧ strcmp e.octaveButton octaveButton = 0 then some e
    else findNoteFrom fingeringCode octaveButton rest

/-- The function `findNote`: the scan started at index 0 of the chart. -/
def findNote (fingeringCode : Int) (octaveButton : String) : Option TrumpetNote :=
  findNoteFrom fingeringCode octaveButton FINGERING_CHART

/-! ## Poll step -/

/-- The levels returned by the nine `digitalRead` calls of one pass of `loop`
(`true` is HIGH). -/
structure Pins where
  valve1Pin : Bool
  valve2Pin : Bool
  valve3Pin : Bool
  octave1Pin : Bool
  octave2Pin : Bool
  octave3Pin : Bool
  octave4Pin : Bool
  octave5Pin : Bool
  soundEnPin : Bool
  deriving DecidableEq

/-- The levels read when the given switches are pressed: a pressed switch
pulls its pin LOW. -/
def pinsOfPressed (v1 v2 v3 s1 s2 s3 s4 s5 en : Bool) : Pins :=
  ⟨!v1, !v2, !v3, !s1, !s2, !s3, !s4, !s5, !en⟩

/-- The octave index computed by `loop`: 0, overwritten by the first selector
of the `if`/`else if` chain that reads LOW. -/
def readOctave (p : Pins) : Int :=
  if !p.octave1Pin then 1
  else if !p.octave2Pin then 2
  else if !p.octave3Pin then 3
  else if !p.octave4Pin then 4
  else if !p.octave5Pin then 5
  else 0

/-- The shared variables `currentFrequency`, `phase` and `soundEnabled`. -/
structure SynthState (α : Type) where
  currentFrequency : α
  phase : α
  soundEnabled : Bool

/-- The note resolved by one pass of `loop`: fingering code, octave label,
chart lookup. -/
def resolveNote (p : Pins) : Option TrumpetNote :=
  findNote (getFingeringCode (!p.valve1Pin) (!p.valve2Pin) (!p.valve3Pin))
    (getOctaveButtonName (readOctave p))

/-- One pass of `loop` on the shared variables: `soundEnabled` is set from the
enable pin, `currentFrequency` is the frequency of the resolved note or 0 when
there is none; `phase` is not written. -/
def loop {α : Type} [LinearOrderedField α] (p : Pins) (s : SynthState α) : SynthState α :=
  match resolveNote p with
  | some note =>
    { currentFrequency := (note.frequency : α), phase := s.phase,
      soundEnabled := !p.soundEnPin }
  | none =>
    { currentFrequency := 0, phase := s.phase, soundEnabled := !p.soundEnPin }

/-! ## Waveform synthesizer -/

/-- The constant `SAMPLE_RATE`. -/
def SAMPLE_RATE : Nat := 44100

/-- Conversion of a floating value to an integer: truncation toward zero. -/
def truncToZero {α : Type} [LinearOrderedField α] [FloorRing α] (x : α) : Int :=
  if 0 ≤ x then ⌊x⌋ else ⌈x⌉

/-- The cast to `uint8_t`: reduction modulo 256. -/
def toUint8 (z : Int) : Int := z % 256

/-- The value `(uint8_t)((sineValue + 1.0) * 127.5)` written to the DAC
(127.5 is `255 / 2`). -/
def dacQuantize {α : Type} [LinearOrderedField α] [FloorRing α] (sineValue : α) : Int :=
  toUint8 (truncToZero ((sineValue + 1) * (255 / 2)))

/-- The sample written by the silent branch of `onTimer`. -/
def silenceSample : Int := 128

/-- The handler `onTimer`: the new shared state and the value passed to
`dac_output_voltage`. -/
def onTimer {α : Type} [LinearOrderedField α] [FloorRing α] (PI : α) (sin : α → α)
    (s : SynthState α) : SynthState α × Int :=
  if s.soundEnabled = true ∧ 0 < s.currentFrequency then
    let phaseIncrement := (2 * PI * s.currentFrequency) / (SAMPLE_RATE : α)
    let phase1 := s.phase + phaseIncrement
    let phase2 := if 2 * PI ≤ phase1 then phase1 - 2 * PI else phase1
    ({ s with phase := phase2 }, dacQuantize (sin phase2))
  else
    ({ s with phase := 0 }, silenceSample)

/-- A run of the timer handler: each tick sees the values of `soundEnabled`
and `currentFrequency` current at that tick (the poll loop may rewrite them
between ticks) and the phase left by the previous tick. The result lists, per
tick, the sample written and the phase afterwards. -/
def runTicks {α : Type} [LinearOrderedField α] [FloorRing α] (PI : α) (sin : α → α) :
    List (Bool × α) → α → List (Int × α)
  | [], _ => []
  | (en, f) :: rest, phase =>
    let r := onTimer PI sin { currentFrequency := f, phase := phase, soundEnabled := en }
    (r.2, r.1.phase) :: runTicks PI sin rest r.1.phase

/-! ## Auxiliary lemmas -/

theorem strcmpChars_eq_zero_iff (a b : List Char) : strcmpChars a b = 0 ↔ a = b := by
  induction a generalizing b with
  | nil => cases b <;> simp [strcmpChars]
  | cons x xs ih =>
    cases b with
    | nil => simp [strcmpChars]
    | cons y ys =>
      by_cases hxy : x = y
      · simp [strcmpChars, hxy, ih]
      · have hne : (x.toNat : Int) - (y.toNat : Int) ≠ 0 := by
          intro h
          apply hxy
          apply Char.ext
          apply UInt32.ext
          have h2 : x.toNat = y.toNat := by omega
          exact h2
        simp [strcmpChars, hxy, hne]

theorem strcmp_eq_zero_iff (a b : String) : strcmp a b = 0 ↔ a = b := by
  unfold strcmp
  rw [strcmpChars_eq_zero_iff]
  constructor
  · intro h
    exact String.ext h
  · intro h
    rw [h]

theorem findNoteFrom_eq_none_iff (code : Int) (label : String) (chart : List TrumpetNote) :
    findNoteFrom code label chart = none ↔
      ∀ e ∈ chart, ¬ (e.fingering = code ∧ e.octaveButton = label) := by
  induction chart with
  | nil => simp [findNoteFrom]
  | cons x xs ih =>
    by_cases hx : x.fingering = code ∧ x.octaveButton = label
    · have hx2 : x.fingering = code ∧ strcmp x.octaveButton label = 0 :=
        ⟨hx.1, (strcmp_eq_zero_iff _ _).2 hx.2⟩
      simp only [findNoteFrom, hx2, and_self, if_true]
      constructor
      · intro h
        cases h
      · intro h
        exact absurd hx (h x (List.mem_cons_self _ _))
    · have hx2 : ¬ (x.fingering = code ∧ strcmp x.octaveButton label = 0) := by
        intro h
        exact hx ⟨h.1, (strcmp_eq_zero_iff _ _).1 h.2⟩
      simp only [findNoteFrom, hx2, if_false, ih]
      constructor
      · intro h e he
        rcases List.mem_cons.1 he with rfl | he2
        · exact hx
        · exact h e he2
      · intro h e he
        exact h e (List.mem_cons_of_mem _ he)

theorem findNoteFrom_some (code : Int) (label : String) (chart : List TrumpetNote)
    (e : TrumpetNote) (h : findNoteFrom code label chart = some e) :
    e ∈ chart ∧ e.fingering = code ∧ e.octaveButton = label := by
  induction chart with
  | nil => simp [findNoteFrom] at h
  | cons x xs ih =>
    by_cases hx : x.fingering = code ∧ strcmp x.octaveButton label = 0
    · simp only [findNoteFrom, hx, and_self, if_true, Option.some.injEq] at h
      subst h
      exact ⟨List.mem_cons_self _ _, hx.1, (strcmp_eq_zero_iff _ _).1 hx.2⟩
    · simp only [findNoteFrom, hx, if_false] at h
      have := ih h
      exact ⟨List.mem_cons_of_mem _ this.1, this.2⟩

theorem chart_frequency_bounds (e : TrumpetNote) (he : e ∈ FINGERING_CHART) :
    185 ≤ e.frequency ∧ e.frequency ≤ 1047 := by
  simp only [FINGERING_CHART, List.mem_cons, List.mem_singleton, List.not_mem_nil,
    or_false] at he
  rcases he with h | h | h | h | h | h | h | h | h | h | h | h | h | h | h | h | h | h | h |
    h | h | h | h | h | h | h | h | h | h | h | h <;> subst h <;> norm_num

theorem onTimer_of_silent {α : Type} [LinearOrderedField α] [FloorRing α] (PI : α)
    (sin : α → α) (s : SynthState α)
    (h : s.soundEnabled = false ∨ s.currentFrequency ≤ 0) :
    onTimer PI sin s = ({ s with phase := 0 }, silenceSample) := by
  have hc : ¬ (s.soundEnabled = true ∧ 0 < s.currentFrequency) := by
    rintro ⟨h1, h2⟩
    rcases h with h | h
    · rw [h] at h1
      cases h1
    · exact absurd h2 (not_lt.2 h)
  simp only [onTimer, hc, if_false]

theorem runTicks_of_silent {α : Type} [LinearOrderedField α] [FloorRing α] (PI : α)
    (sin : α → α) (ticks : List (Bool × α)) (phase0 : α)
    (h : ∀ t ∈ ticks, t.1 = false ∨ t.2 ≤ 0) :
    runTicks PI sin ticks phase0 = List.replicate ticks.length (silenceSample, 0) := by
  induction ticks generalizing phase0 with
  | nil => simp [runTicks]
  | cons t rest ih =>
    obtain ⟨en, f⟩ := t
    have ht : en = false ∨ f ≤ 0 := h (en, f) (List.mem_cons_self _ _)
    have hstep := onTimer_of_silent PI sin
      { currentFrequency := f, phase := phase0, soundEnabled := en } ht
    have hrest := ih 0 (fun t ht2 => h t (List.mem_cons_of_mem _ ht2))
    simp only [runTicks, hstep, hrest, List.length_cons, List.replicate_succ]

theorem runTicks_length {α : Type} [LinearOrderedField α] [FloorRing α] (PI : α)
    (sin : α → α) (ticks : List (Bool × α)) (phase0 : α) :
    (runTicks PI sin ticks phase0).length = ticks.length := by
  induction ticks generalizing phase0 with
  | nil => simp [runTicks]
  | cons t rest ih =>
    obtain ⟨en, f⟩ := t
    simp only [runTicks, List.length_cons, ih]

theorem onTimer_phase_bounds {α : Type} [LinearOrderedField α] [FloorRing α] (PI : α)
    (sin : α → α) (hPI : 0 < PI) (s : SynthState α)
    (h0 : 0 ≤ s.phase) (h1 : s.phase < 2 * PI) (hf : s.currentFrequency < 44100) :
    0 ≤ (onTimer PI sin s).1.phase ∧ (onTimer PI sin s).1.phase < 2 * PI := by
  by_cases hc : s.soundEnabled = true ∧ 0 < s.currentFrequency
  · have hinc0 : 0 < (2 * PI * s.currentFrequency) / (SAMPLE_RATE : α) := by
      have : (0 : α) < (SAMPLE_RATE : α) := by simp [SAMPLE_RATE]
      have h2 : 0 < 2 * PI * s.currentFrequency := by
        have := hc.2
        positivity
      exact div_pos h2 this
    have hinc1 : (2 * PI * s.currentFrequency) / (SAMPLE_RATE : α) < 2 * PI := by
      have hS : (0 : α) < (SAMPLE_RATE : α) := by simp [SAMPLE_RATE]
      rw [div_lt_iff₀ hS]
      have hS2 : ((SAMPLE_RATE : Nat) : α) = 44100 := by simp [SAMPLE_RATE]
      rw [hS2]
      have : 0 < 2 * PI := by positivity
      nlinarith
    simp only [onTimer, hc, and_self, if_true]
    split_ifs with hw
    · constructor
      · linarith
      · linarith
    · constructor
      · linarith
      · exact not_le.1 hw
  · simp only [onTimer, hc, if_false]
    constructor
    · exact le_refl _
    · positivity

theorem runTicks_phase_bounds {α : Type} [LinearOrderedField α] [FloorRing α] (PI : α)
    (sin : α → α) (hPI : 0 < PI) (ticks : List (Bool × α)) (phase0 : α)
    (h0 : 0 ≤ phase0) (h1 : phase0 < 2 * PI) (hf : ∀ t ∈ ticks, t.2 < 44100) :
    ∀ r ∈ runTicks PI sin ticks phase0, 0 ≤ r.2 ∧ r.2 < 2 * PI := by
  induction ticks generalizing phase0 with
  | nil => simp [runTicks]
  | cons t rest ih =>
    obtain ⟨en, f⟩ := t
    have hft : f < 44100 := hf (en, f) (List.mem_cons_self _ _)
    have hstep := onTimer_phase_bounds PI sin hPI
      { currentFrequency := f, phase := phase0, soundEnabled := en } h0 h1 hft
    have hrest := ih _ hstep.1 hstep.2 (fun t ht2 => hf t (List.mem_cons_of_mem _ ht2))
    intro r hr
    simp only [runTicks, List.mem_cons] at hr
    rcases hr with rfl | hr
    · exact hstep
    · exact hrest r hr

theorem truncToZero_of_nonneg {α : Type} [LinearOrderedField α] [FloorRing α] (x : α)
    (hx : 0 ≤ x) : truncToZero x = ⌊x⌋ := by
  simp [truncToZero, hx]

theorem truncToZero_unit_range (s : ℝ) (h1 : -1 ≤ s) (h2 : s ≤ 1) :
    truncToZero ((s + 1) * (255 / 2)) = ⌊(s + 1) * (255 / 2)⌋ ∧
    0 ≤ ⌊(s + 1) * (255 / 2)⌋ ∧ ⌊(s + 1) * (255 / 2)⌋ ≤ 255 := by
  have hx0 : 0 ≤ (s + 1) * (255 / 2) := by nlinarith
  have hx1 : (s + 1) * (255 / 2) < 256 := by nlinarith
  refine ⟨truncToZero_of_nonneg _ hx0, Int.floor_nonneg.2 hx0, ?_⟩
  have : ⌊(s + 1) * (255 / 2)⌋ < 256 := by
    rw [Int.floor_lt]
    exact_mod_cast hx1
  omega

/-! ## Fingering resolver: theorems -/

/-- C1: on each of the 8 valve combinations `getFingeringCode` returns the code
of the fixed table (none 0, v3 3, v2 2, v1 1, v2+v3 23, v1+v3 13, v1+v2 12,
all 123), and for every combination one of the eight guards holds, so the
final `return 0` is not reached. -/
theorem getFingeringCode_table :
    getFingeringCode false false false = 0 ∧
    getFingeringCode false false true = 3 ∧
    getFingeringCode false true false = 2 ∧
    getFingeringCode true false false = 1 ∧
    getFingeringCode false true true = 23 ∧
    getFingeringCode true false true = 13 ∧
    getFingeringCode true true false = 12 ∧
    getFingeringCode true true true = 123 ∧
    ∀ v1 v2 v3 : Bool,
      ((!v1 && !v2 && !v3) || (!v1 && !v2 && v3) || (!v1 && v2 && !v3) ||
        (v1 && !v2 && !v3) || (!v1 && v2 && v3) || (v1 && !v2 && v3) ||
        (v1 && v2 && !v3) || (v1 && v2 && v3)) = true := by
  refine ⟨by decide, by decide, by decide, by decide, by decide, by decide, by decide,
    by decide, ?_⟩
  decide

/-- C2: `findNote` returns the null result exactly when no chart entry has the
given (fingering, octaveButton) pair, and an entry it returns is a member of
the chart with exactly that fingering and that octave button. -/
theorem findNote_none_iff_and_some (code : Int) (label : String) :
    (findNote code label = none ↔
      ∀ e ∈ FINGERING_CHART, ¬ (e.fingering = code ∧ e.octaveButton = label)) ∧
    (∀ e : TrumpetNote, findNote code label = some e →
      e ∈ FINGERING_CHART ∧ e.fingering = code ∧ e.octaveButton = label) :=
  ⟨findNoteFrom_eq_none_iff code label FINGERING_CHART,
    fun e h => findNoteFrom_some code label FINGERING_CHART e h⟩

/-- C3: the uniqueness of the lookup key fails in the chart: the entries at
indices 0 ("F#3") and 6 ("C4") are distinct and both have fingering 0 and
octave button "None", so it is not the case that any two entries at distinct
indices below `CHART_SIZE` differ in fingering or octave button. -/
theorem chart_key_not_unique :
    ¬ (∀ i j : Fin CHART_SIZE, i ≠ j →
        (FINGERING_CHART.get i).fingering ≠ (FINGERING_CHART.get j).fingering ∨
        (FINGERING_CHART.get i).octaveButton ≠ (FINGERING_CHART.get j).octaveButton) := by
  intro h
  have h06 := h ⟨0, by decide⟩ ⟨6, by decide⟩ (by decide)
  revert h06
  decide

/-- C4: with no valve and no octave selector pressed the resolver returns the
first chart entry with key (0, "None"), which is "F#3" at 185 Hz and not "C4"
at 261.6 Hz, and the poll step stores 185 as the current frequency. -/
theorem resolve_open_none_gives_Fsharp3 (en : Bool) (s : SynthState ℚ) :
    resolveNote (pinsOfPressed false false false false false false false false en) =
      some ⟨"F#3", 0, "None", 185⟩ ∧
    (loop (pinsOfPressed false false false false false false false false en) s).currentFrequency
      = 185 ∧
    (loop (pinsOfPressed false false false false false false false false en) s).currentFrequency
      ≠ 2616 / 10 := by
  have hr : resolveNote (pinsOfPressed false false false false false false false false en) =
      some ⟨"F#3", 0, "None", 185⟩ := by
    cases en <;> decide
  refine ⟨hr, ?_, ?_⟩
  · simp [loop, hr]
  · simp [loop, hr]
    norm_num

/-- C5: for each of the 32 assignments of the five selector booleans the label
computed by the poll loop and `getOctaveButtonName` is "None" when no selector
is pressed and otherwise that of the lowest-numbered pressed selector, whatever
the higher-numbered selectors, the valves and the enable switch are. -/
theorem octave_label_priority (v1 v2 v3 s1 s2 s3 s4 s5 en : Bool) :
    (s1 = false ∧ s2 = false ∧ s3 = false ∧ s4 = false ∧ s5 = false →
      getOctaveButtonName (readOctave (pinsOfPressed v1 v2 v3 s1 s2 s3 s4 s5 en)) = "None") ∧
    (s1 = true →
      getOctaveButtonName (readOctave (pinsOfPressed v1 v2 v3 s1 s2 s3 s4 s5 en)) = "SW4") ∧
    (s1 = false ∧ s2 = true →
      getOctaveButtonName (readOctave (pinsOfPressed v1 v2 v3 s1 s2 s3 s4 s5 en)) = "SW5") ∧
    (s1 = false ∧ s2 = false ∧ s3 = true →
      getOctaveButtonName (readOctave (pinsOfPressed v1 v2 v3 s1 s2 s3 s4 s5 en)) = "SW6") ∧
    (s1 = false ∧ s2 = false ∧ s3 = false ∧ s4 = true →
      getOctaveButtonName (readOctave (pinsOfPressed v1 v2 v3 s1 s2 s3 s4 s5 en)) = "SW7") ∧
    (s1 = false ∧ s2 = false ∧ s3 = false ∧ s4 = false ∧ s5 = true →
      getOctaveButtonName (readOctave (pinsOfPressed v1 v2 v3 s1 s2 s3 s4 s5 en)) = "SW8") := by
  cases s1 <;> cases s2 <;> cases s3 <;> cases s4 <;> cases s5 <;>
    simp [readOctave, pinsOfPressed, getOctaveButtonName]

/-! ## Waveform synthesizer: theorems -/

/-- C6: in a state where `soundEnabled` is false or `currentFrequency` is at
most 0, whatever the phase, one call of `onTimer` writes the sample 128 and
leaves the phase at 0; and over any run of ticks that all see
`soundEnabled = false`, from any starting phase, every tick writes 128 and
leaves phase 0. -/
theorem onTimer_silent_emits_128 {α : Type} [LinearOrderedField α] [FloorRing α] (PI : α)
    (sin : α → α) (s : SynthState α)
    (h : s.soundEnabled = false ∨ s.currentFrequency ≤ 0) :
    (onTimer PI sin s).2 = 128 ∧ (onTimer PI sin s).1.phase = 0 ∧
    ∀ (ticks : List (Bool × α)) (phase0 : α), (∀ t ∈ ticks, t.1 = false) →
      runTicks PI sin ticks phase0 = List.replicate ticks.length ((128 : Int), (0 : α)) := by
  refine ⟨?_, ?_, ?_⟩
  · rw [onTimer_of_silent PI sin s h]
    rfl
  · rw [onTimer_of_silent PI sin s h]
  · intro ticks phase0 hticks
    exact runTicks_of_silent PI sin ticks phase0 (fun t ht => Or.inl (hticks t ht))

theorem onTimer_silent_emits_128_witness :
    ((⟨440, 1, false⟩ : SynthState ℝ).soundEnabled = false ∨
      (⟨440, 1, false⟩ : SynthState ℝ).currentFrequency ≤ 0) ∧
    (onTimer Real.pi Real.sin (⟨440, 1, false⟩ : SynthState ℝ)).2 = 128 ∧
    (onTimer Real.pi Real.sin (⟨440, 1, false⟩ : SynthState ℝ)).1.phase = 0 ∧
    ∀ (ticks : List (Bool × ℝ)) (phase0 : ℝ), (∀ t ∈ ticks, t.1 = false) →
      runTicks Real.pi Real.sin ticks phase0 =
        List.replicate ticks.length ((128 : Int), (0 : ℝ)) :=
  ⟨Or.inl rfl, onTimer_silent_emits_128 Real.pi Real.sin ⟨440, 1, false⟩ (Or.inl rfl)⟩

/-- C7: with the phase an exact real, from a state with phase in [0, 2π) and
`currentFrequency` in [185, 1047] (sound enabled or not) the increment
2π·f/44100 is positive and below 2π and the phase after one call of `onTimer` is again in
[0, 2π); and in every run from phase 0 whose ticks see frequency 0 or a chart
frequency, there is one result per tick and the phase after each tick is in
[0, 2π). -/
theorem onTimer_phase_in_range (s : SynthState ℝ)
    (h0 : 0 ≤ s.phase) (h1 : s.phase < 2 * Real.pi)
    (hlo : 185 ≤ s.currentFrequency) (hhi : s.currentFrequency ≤ 1047) :
    (0 < (2 * Real.pi * s.currentFrequency) / (SAMPLE_RATE : ℝ) ∧
      (2 * Real.pi * s.currentFrequency) / (SAMPLE_RATE : ℝ) < 2 * Real.pi) ∧
    (0 ≤ (onTimer Real.pi Real.sin s).1.phase ∧
      (onTimer Real.pi Real.sin s).1.phase < 2 * Real.pi) ∧
    ∀ ticks : List (Bool × ℝ),
      (∀ t ∈ ticks, t.2 = 0 ∨ ∃ e ∈ FINGERING_CHART, t.2 = (e.frequency : ℝ)) →
      (runTicks Real.pi Real.sin ticks 0).length = ticks.length ∧
      ∀ r ∈ runTicks Real.pi Real.sin ticks 0, 0 ≤ r.2 ∧ r.2 < 2 * Real.pi := by
  have hpi : 0 < Real.pi := Real.pi_pos
  have hS : (0 : ℝ) < (SAMPLE_RATE : ℝ) := by simp [SAMPLE_RATE]
  refine ⟨⟨?_, ?_⟩, ?_, ?_⟩
  · have hfpos : 0 < s.currentFrequency := by linarith
    exact div_pos (by positivity) hS
  · rw [div_lt_iff₀ hS]
    have hS2 : ((SAMPLE_RATE : Nat) : ℝ) = 44100 := by simp [SAMPLE_RATE]
    rw [hS2]
    nlinarith
  · exact onTimer_phase_bounds Real.pi Real.sin hpi s h0 h1 (by linarith)
  · intro ticks hticks
    refine ⟨runTicks_length _ _ _ _, ?_⟩
    apply runTicks_phase_bounds Real.pi Real.sin hpi ticks 0 (le_refl _) (by positivity)
    intro t ht
    rcases hticks t ht with hz | ⟨e, he, hte⟩
    · rw [hz]
      norm_num
    · have hb := (chart_frequency_bounds e he).2
      have hb2 : (e.frequency : ℝ) ≤ 1047 := by exact_mod_cast hb
      rw [hte]
      linarith

theorem onTimer_phase_in_range_witness :
    (0 ≤ (⟨440, 0, true⟩ : SynthState ℝ).phase ∧
      (⟨440, 0, true⟩ : SynthState ℝ).phase < 2 * Real.pi ∧
      185 ≤ (⟨440, 0, true⟩ : SynthState ℝ).currentFrequency ∧
      (⟨440, 0, true⟩ : SynthState ℝ).currentFrequency ≤ 1047) ∧
    (0 ≤ (onTimer Real.pi Real.sin (⟨440, 0, true⟩ : SynthState ℝ)).1.phase ∧
      (onTimer Real.pi Real.sin (⟨440, 0, true⟩ : SynthState ℝ)).1.phase < 2 * Real.pi) :=
  ⟨⟨le_refl _, by positivity, by norm_num, by norm_num⟩,
    (onTimer_phase_in_range ⟨440, 0, true⟩ (le_refl _) (by positivity) (by norm_num)
      (by norm_num)).2.1⟩

/-- C8: for every poll input whose resolved (fingering code, octave label) pair
has no chart entry, the resolver returns no note, the poll step sets
`currentFrequency` to 0 and `soundEnabled` to the enable input, and any number
of `onTimer` calls on the state left by the poll step write only the sample
128, whatever the enable input is. -/
theorem invalid_combo_is_silent {α : Type} [LinearOrderedField α] [FloorRing α] (PI : α)
    (sin : α → α) (p : Pins) (s : SynthState α)
    (h : ∀ e ∈ FINGERING_CHART,
      ¬ (e.fingering = getFingeringCode (!p.valve1Pin) (!p.valve2Pin) (!p.valve3Pin) ∧
        e.octaveButton = getOctaveButtonName (readOctave p))) :
    resolveNote p = none ∧ (loop p s).currentFrequency = 0 ∧
    (loop p s).soundEnabled = (!p.soundEnPin) ∧
    ∀ n : Nat,
      runTicks PI sin
        (List.replicate n ((loop p s).soundEnabled, (loop p s).currentFrequency))
        (loop p s).phase = List.replicate n ((128 : Int), (0 : α)) := by
  have hr : resolveNote p = none := (findNoteFrom_eq_none_iff _ _ _).2 h
  have hf : (loop p s).currentFrequency = 0 := by simp [loop, hr]
  refine ⟨hr, hf, by simp [loop, hr], ?_⟩
  intro n
  have := runTicks_of_silent PI sin
    (List.replicate n ((loop p s).soundEnabled, (loop p s).currentFrequency))
    (loop p s).phase (by
      intro t ht
      rw [List.eq_of_mem_replicate ht]
      exact Or.inr (le_of_eq hf))
  simpa [silenceSample] using this

theorem invalid_combo_is_silent_witness :
    (∀ e ∈ FINGERING_CHART,
      ¬ (e.fingering = getFingeringCode
            (!(pinsOfPressed true true true false false false false true true).valve1Pin)
            (!(pinsOfPressed true true true false false false false true true).valve2Pin)
            (!(pinsOfPressed true true true false false false false true true).valve3Pin) ∧
        e.octaveButton = getOctaveButtonName
          (readOctave (pinsOfPressed true true true false false false false true true)))) ∧
    getFingeringCode true true true = 123 ∧
    getOctaveButtonName
      (readOctave (pinsOfPressed true true true false false false false true true)) = "SW8" ∧
    resolveNote (pinsOfPressed true true true false false false false true true) = none ∧
    (loop (pinsOfPressed true true true false false false false true true)
      (⟨440, 1, true⟩ : SynthState ℚ)).currentFrequency = 0 :=
  ⟨by decide, by decide, by decide,
    (invalid_combo_is_silent (355 / 113 : ℚ) id
      (pinsOfPressed true true true false false false false true true) ⟨440, 1, true⟩
      (by decide)).1,
    (invalid_combo_is_silent (355 / 113 : ℚ) id
      (pinsOfPressed true true true false false false false true true) ⟨440, 1, true⟩
      (by decide)).2.1⟩

/-- C9: the quantization `(uint8_t)((s + 1.0) * 127.5)` is monotone on [-1, 1]:
for reals -1 ≤ s1 ≤ s2 ≤ 1 the written 8-bit values satisfy q(s1) ≤ q(s2); the
truncated values lie in 0..255, so the cast leaves them unchanged; and
q(-1) = 0, q(1) = 255. -/
theorem dacQuantize_monotone (s1 s2 : ℝ) (h1 : -1 ≤ s1) (h12 : s1 ≤ s2) (h2 : s2 ≤ 1) :
    dacQuantize s1 ≤ dacQuantize s2 ∧
    (0 ≤ truncToZero ((s1 + 1) * (255 / 2)) ∧ truncToZero ((s1 + 1) * (255 / 2)) ≤ 255 ∧
      dacQuantize s1 = truncToZero ((s1 + 1) * (255 / 2))) ∧
    (0 ≤ truncToZero ((s2 + 1) * (255 / 2)) ∧ truncToZero ((s2 + 1) * (255 / 2)) ≤ 255 ∧
      dacQuantize s2 = truncToZero ((s2 + 1) * (255 / 2))) ∧
    dacQuantize (-1 : ℝ) = 0 ∧ dacQuantize (1 : ℝ) = 255 := by
  obtain ⟨ht1, hl1, hu1⟩ := truncToZero_unit_range s1 h1 (le_trans h12 h2)
  obtain ⟨ht2, hl2, hu2⟩ := truncToZero_unit_range s2 (le_trans h1 h12) h2
  have hmono : ⌊(s1 + 1) * (255 / 2)⌋ ≤ ⌊(s2 + 1) * (255 / 2)⌋ := by
    apply Int.floor_le_floor
    nlinarith
  have hq1 : dacQuantize s1 = ⌊(s1 + 1) * (255 / 2)⌋ := by
    unfold dacQuantize toUint8
    rw [ht1]
    omega
  have hq2 : dacQuantize s2 = ⌊(s2 + 1) * (255 / 2)⌋ := by
    unfold dacQuantize toUint8
    rw [ht2]
    omega
  refine ⟨?_, ⟨?_, ?_, ?_⟩, ⟨?_, ?_, ?_⟩, ?_, ?_⟩
  · rw [hq1, hq2]
    exact hmono
  · rw [ht1]
    exact hl1
  · rw [ht1]
    exact hu1
  · rw [hq1, ht1]
  · rw [ht2]
    exact hl2
  · rw [ht2]
    exact hu2
  · rw [hq2, ht2]
  · have hz : ((-1 : ℝ) + 1) * (255 / 2) = ((0 : Int) : ℝ) := by norm_num
    unfold dacQuantize toUint8 truncToZero
    rw [hz]
    simp
  · have hz : ((1 : ℝ) + 1) * (255 / 2) = ((255 : Int) : ℝ) := by norm_num
    unfold dacQuantize toUint8 truncToZero
    rw [hz]
    simp

theorem dacQuantize_monotone_witness :
    ((-1 : ℝ) ≤ 0 ∧ (0 : ℝ) ≤ 1 ∧ (1 : ℝ) ≤ 1) ∧
    dacQuantize (0 : ℝ) ≤ dacQuantize (1 : ℝ) :=
  ⟨⟨by norm_num, by norm_num, le_refl _⟩,
    (dacQuantize_monotone 0 1 (by norm_num) (by norm_num) (le_refl _)).1⟩

/-- C10: the sample the tone branch writes for a sine value of 0,
`(uint8_t)((0 + 1.0) * 127.5)`, is 127; the silent branch writes 128; the two
8-bit values differ by at most 1. -/
theorem dacQuantize_zero_near_silence :
    dacQuantize (0 : ℝ) = 127 ∧ silenceSample = 128 ∧
    |dacQuantize (0 : ℝ) - silenceSample| ≤ 1 := by
  have hq : dacQuantize (0 : ℝ) = 127 := by
    have hx : (0 : ℝ) ≤ ((0 : ℝ) + 1) * (255 / 2) := by norm_num
    unfold dacQuantize toUint8
    rw [truncToZero_of_nonneg _ hx]
    have hfl : ⌊((0 : ℝ) + 1) * (255 / 2)⌋ = 127 := by
      rw [Int.floor_eq_iff]
      constructor <;> norm_num
    rw [hfl]
    rfl
  refine ⟨hq, rfl, ?_⟩
  rw [hq]
  decide

end Trumpet
